import Mathlib

/-!
Verification development for `src/environment/discovery/discovery_utils.py` of the
ms_active_directory repository: DNS-based discovery of LDAP / Kerberos (KDC) domain
controllers, probing of each candidate for reachability and round-trip time, and
production of a latency-ordered, optionally truncated URI list.

The Python functions are embedded shallowly:
- network interactions (the DNS query, the LDAP connection open / StartTLS
  negotiation, the raw TCP connect per address family) are abstracted as explicit
  outcome values handed to the embedded functions, exactly one outcome per external
  call the Python code makes;
- `time.time()` readings are supplied by the environment as integers (clock
  ticks); the properties at issue only ever subtract, compare and test equality
  of readings, for which an ordered additive group of ticks is a faithful model
  of the ordering behavior of the float readings;
- code that can raise an uncaught exception is embedded in `Except`;
- Python's stable builtin `sorted` is modelled by the stable insertion sort
  `sortLe` below (any two stable sorts with the same key agree), and Python's
  string comparison by the code-point-lexicographic `strLe`.
-/

namespace DiscoveryUtils

/-! ## Definitions -/

/-! ### A stable sort modelling Python's builtin `sorted`

`sorted(l, key=k)` is a stable sort: it orders by `k` ascending and keeps the
relative input order of elements with equal keys.  `sortLe le` is the standard
stable insertion sort for a boolean comparison `le` (intended to be a total
preorder, `le a b` meaning "the key of `a` is at most the key of `b`"): an
element is inserted immediately before the first element it is `le`-below, so
an earlier input element precedes later elements with an equal key. -/

def insertLe {α : Type} (le : α → α → Bool) (x : α) : List α → List α
  | [] => [x]
  | y :: ys => if le x y = true then x :: y :: ys else y :: insertLe le x ys

def sortLe {α : Type} (le : α → α → Bool) : List α → List α
  | [] => []
  | a :: l => insertLe le a (sortLe le l)

/-! ### Python string comparison

Python compares strings lexicographically by code point.  `strLe` is that
comparison on the character lists underlying Lean strings (Lean's builtin
`String` ordering is defined through iterator recursion that the kernel cannot
evaluate, so the comparison is spelled out structurally). -/

def strLe : List Char → List Char → Bool
  | [], _ => true
  | _ :: _, [] => false
  | c :: cs, d :: ds =>
    if c < d then true else if d < c then false else strLe cs ds

/-- Python string comparison `a <= b`: lexicographic by code point. -/
def pyStrLe (a b : String) : Bool := strLe a.data b.data

/-! ### Data model -/

/-- One decoded DNS SRV record, as built by `_resolve_record_in_dns`
(discovery_utils.py lines 100-101): the tuple
`(record.target.to_text(omit_final_dot=True), record.port, record.priority, record.weight)`.
The dnspython decoding of the raw wire record into these four fields is library
code outside this repository; records enter the embedding already decoded. -/
structure SrvRecord where
  host : String
  port : Nat
  priority : Nat
  weight : Nat
deriving DecidableEq, Repr

/-- Outcome of the single external call `temp_resolver.resolve(record_name, record_type, tcp=True)`
(line 89): either the decoded record list, or one of the two kinds of exception the
`try` block distinguishes: a `dns.exception.DNSException` (line 90; this class also
covers the syntax errors dnspython raises for a malformed record name, as well as
NXDOMAIN, timeout and malformed responses) or any other unexpected exception (line 93). -/
inductive DnsOutcome where
  | ok (resolved_records : List SrvRecord)
  | dnsException
  | unexpectedException
deriving DecidableEq

/-- Comparison of the Python sort keys `(record_tuple[2], -1*record_tuple[3])`
(line 106): lexicographic on `(priority, -1 * weight)` over Python ints,
i.e. priority ascending, then weight descending. -/
def recLe (a b : SrvRecord) : Bool :=
  decide ((a.priority : Int) < (b.priority : Int)
    ∨ ((a.priority : Int) = (b.priority : Int)
        ∧ (-1 * (a.weight : Int)) ≤ (-1 * (b.weight : Int))))

/-- Embeds `_resolve_record_in_dns` (lines 74-109).  The resolver issues one DNS
query (abstracted as the `DnsOutcome`); both `except` arms return `[]` (lines 90-96);
on success the decoded tuples are sorted by
`sorted(record_tuples, key=lambda record_tuple: (record_tuple[2], -1*record_tuple[3]))`
(line 106), a stable sort modelled by `sortLe recLe`.  The function always returns a
list and raises nothing: both exception classes are caught. -/
def resolve_record_in_dns : DnsOutcome → List SrvRecord
  | DnsOutcome.ok resolved_records => sortLe recLe resolved_records
  | DnsOutcome.dnsException => []
  | DnsOutcome.unexpectedException => []

/-! ### LDAP reachability probe -/

/-- Behavior of `conn.start_tls()` (line 200) when it is reached: it returns a
truthy value, returns a falsy value, or raises. -/
inductive TlsOutcome where
  | ok
  | failed
  | raised
deriving DecidableEq

/-- Environment of one call to `_check_ldap_server_availability_and_rtt`: whether
`conn.open()` (line 198) raises, how `conn.start_tls()` behaves if reached, and the
two clock readings `start = time.time()` (line 196) and `end = time.time()` (line 203). -/
structure LdapProbeEnv where
  openRaises : Bool
  tls : TlsOutcome
  tStart : ℤ
  tEnd : ℤ
deriving DecidableEq

/-- Embeds `_check_ldap_server_availability_and_rtt` (lines 174-211).
`ldap_uri = 'ldap://{0}:{1}'.format(server_host, server_port)` (line 191, braces
elided here); `conn.open()` raising is caught by the bare `except:` (line 204) and
yields `None`; with `secure` set, `conn.start_tls()` returning falsy hits the
explicit `return None` (line 202) and `start_tls` raising is caught by the same
bare `except:`; otherwise the probe returns `(end - start, ldap_uri)` (line 211). -/
def check_ldap_server_availability_and_rtt (server_host : String) (server_port : Nat)
    (secure : Bool) (env : LdapProbeEnv) : Option (ℤ × String) :=
  let ldap_uri := "ldap://" ++ server_host ++ ":" ++ toString server_port
  if env.openRaises then none
  else if secure then
    match env.tls with
    | TlsOutcome.failed => none
    | TlsOutcome.raised => none
    | TlsOutcome.ok => some (env.tEnd - env.tStart, ldap_uri)
  else some (env.tEnd - env.tStart, ldap_uri)

/-! ### KDC reachability probe -/

/-- One raw TCP connect attempt (`temp_socket.connect(temp_addr_tuple)`, line 246):
whether it succeeds, and the clock readings `start = time.time()` (line 245) and
`end = time.time()` (line 247) around it.  A failing connect (whether it raises
`socket.error`, caught at line 249, or anything else, caught by the outer bare
`except:` at line 258) makes the loop move to the next candidate; socket
shutdown/close failures are swallowed (lines 252-257) and do not affect the value. -/
structure ConnAttempt where
  connectSucceeds : Bool
  tStart : ℤ
  tEnd : ℤ
deriving DecidableEq

/-- Environment of one call to `_check_kdc_availability_and_rtt`: the behavior of
the IPv6 connect attempt and of the IPv4 connect attempt. -/
structure KdcProbeEnv where
  v6 : ConnAttempt
  v4 : ConnAttempt
deriving DecidableEq

/-- Modelled from the spec: `format_utils.format_hostname_or_ip_and_port_to_uri`
lives in `environment/format_utils.py`, which is not under src/.  The spec (section
4.3) says only that the probe "Builds a connection URI describing host and port
(host/port combined into a canonical string)"; no settled claim depends on the
exact string shape. -/
def format_hostname_or_ip_and_port_to_uri (host : String) (port : Nat) : String :=
  host ++ ":" ++ toString port

/-- The `for temp_socket, temp_addr_tuple in candidates:` loop (lines 242-259):
the first successful connect returns `(end - start, kdc_uri)` immediately
(line 248); any failure falls through to the next candidate; exhausting the
candidates reaches `return None` (line 260). -/
def tryConnectCandidates (kdc_uri : String) : List ConnAttempt → Option (ℤ × String)
  | [] => none
  | c :: rest =>
    if c.connectSucceeds then some (c.tEnd - c.tStart, kdc_uri)
    else tryConnectCandidates kdc_uri rest

/-- Embeds `_check_kdc_availability_and_rtt` (lines 214-260).  The candidate list is
built as IPv6 first, IPv4 second (lines 239-240), both with the same host and port
(lines 234, 237), and tried in order. -/
def check_kdc_availability_and_rtt (server_host : String) (server_port : Nat)
    (env : KdcProbeEnv) : Option (ℤ × String) :=
  let kdc_uri := format_hostname_or_ip_and_port_to_uri server_host server_port
  tryConnectCandidates kdc_uri [env.v6, env.v4]

/-! ### Concurrent ranking engine -/

/-- The one uncaught exception the ranking engine can raise: the list
comprehension guard `result_tuple[0] is not None` (line 158) subscripts each
collected result, and subscripting `None` raises
`TypeError: 'NoneType' object is not subscriptable`. -/
inductive PyError where
  | typeError
deriving DecidableEq, Repr

/-- Embeds lines 157-158:
`[result_tuple for result_tuple in rtt_results if result_tuple[0] is not None]`.
For a result that is an actual `(rtt, uri)` tuple the guard is true (the probes
only build tuples whose first component is a float, never `None`), so the tuple is
kept; for a result that is `None` the subscript itself raises `TypeError` and the
whole engine call fails.  Results are inspected left to right, as the
comprehension does. -/
def collectReachable : List (Option (ℤ × String)) → Except PyError (List (ℤ × String))
  | [] => Except.ok []
  | none :: _ => Except.error PyError.typeError
  | some result_tuple :: rest =>
    (collectReachable rest).map (fun kept => result_tuple :: kept)

/-- Comparison used by `sorted(rtt_uri_tuples)` (line 161): Python's default
lexicographic tuple order on `(round trip time, uri)` — RTT ascending, then URI
ascending by Python's code-point string comparison. -/
def pairLe (a b : ℤ × String) : Bool :=
  decide (a.1 < b.1 ∨ (a.1 = b.1 ∧ pyStrLe a.2 b.2 = true))

/-- Embeds the Python slice `result_list[:maximum_result_list_length]` (line 168)
for an arbitrary (possibly negative) integer bound: a non-negative bound keeps the
first `n` elements; a negative bound drops the last `|n|` elements. -/
def pySliceTake {α : Type} (n : Int) (l : List α) : List α :=
  if 0 ≤ n then l.take n.toNat else l.take (l.length - n.natAbs)

/-- Embeds `_process_sort_return_rtt_ordering_results` (lines 140-171), applied to
the collected task results `rtt_results` (the thread pool at lines 152-155 appends
`task.result()` in submission order, so the collected list is exactly one probe
result per dispatched lookup, in dispatch order).  The engine filters (line 157,
which raises `TypeError` on a `None` result), sorts with the stable builtin
`sorted` (line 161), projects the URIs (line 164), and applies the truncation
guard `if maximum_result_list_length and len(result_list) > maximum_result_list_length:`
(line 167) — `None` and `0` are falsy, every other integer is truthy.  It returns
`short_list` alone (line 171). -/
def process_sort_return_rtt_ordering_results (rtt_results : List (Option (ℤ × String)))
    (maximum_result_list_length : Option Int) : Except PyError (List String) :=
  match collectReachable rtt_results with
  | Except.error e => Except.error e
  | Except.ok rtt_uri_tuples =>
    let sorted_tuples := sortLe pairLe rtt_uri_tuples
    let result_list := sorted_tuples.map Prod.snd
    let short_list :=
      match maximum_result_list_length with
      | none => result_list
      | some n =>
        if n ≠ 0 ∧ (result_list.length : Int) > n then pySliceTake n result_list
        else result_list
    Except.ok short_list

/-- The full ordered URI list `result_list` (line 164) that the engine builds
internally before truncation, exposed for stating properties about the
limited/full relationship. -/
def rttFullList (rtt_results : List (Option (ℤ × String))) : Except PyError (List String) :=
  (collectReachable rtt_results).map
    (fun rtt_uri_tuples => (sortLe pairLe rtt_uri_tuples).map Prod.snd)

/-! ### Probe dispatch -/

/-- Embeds the loop at lines 117-122 (identically lines 131-136 for KDCs).  Each
iteration rebinds the function-scoped variables `server_host`, `server_port` and
appends `fn = lambda: _check_ldap_server_availability_and_rtt(server_host, server_port, secure)`.
A Python lambda captures the variables, not their current values, and the lambdas
are only called later, inside `_process_sort_return_rtt_ordering_results`, after
this loop has finished — so every lambda reads the values left by the loop's final
iteration.  The host/port target list of the dispatched lookups is therefore one
entry per record, every entry being the last record's host and port. -/
def lookupCallTargets (server_records : List SrvRecord) : List (String × Nat) :=
  match server_records.getLast? with
  | none => []
  | some last_record => server_records.map (fun _ => (last_record.host, last_record.port))

/-- Embeds `_order_ldap_servers_by_rtt` (lines 112-123): builds the lookup lambdas
(see `lookupCallTargets`) and hands them to the ranking engine.  `envs` supplies
the network environment seen by each dispatched lookup, in dispatch order. -/
def order_ldap_servers_by_rtt (ldap_server_records : List SrvRecord)
    (server_limit : Option Int) (secure : Bool) (envs : List LdapProbeEnv) :
    Except PyError (List String) :=
  process_sort_return_rtt_ordering_results
    (List.zipWith
      (fun call env => check_ldap_server_availability_and_rtt call.1 call.2 secure env)
      (lookupCallTargets ldap_server_records) envs)
    server_limit

/-- Embeds `_order_kdcs_by_rtt` (lines 126-137); same shape as
`order_ldap_servers_by_rtt`, with the KDC probe. -/
def order_kdcs_by_rtt (kdc_server_records : List SrvRecord)
    (server_limit : Option Int) (envs : List KdcProbeEnv) :
    Except PyError (List String) :=
  process_sort_return_rtt_ordering_results
    (List.zipWith
      (fun call env => check_kdc_availability_and_rtt call.1 call.2 env)
      (lookupCallTargets kdc_server_records) envs)
    server_limit

/-! ### Discovery facade -/

/-- Embeds `discover_ldap_domain_controllers_in_domain` (lines 32-51).  The
domain/site strings only select which SRV name template is formatted and queried
(lines 47-49, constants from `discovery_constants.py`, not under src/); the query
itself is the single external DNS call abstracted by `dns : DnsOutcome` — in
particular, a syntactically invalid domain name makes dnspython raise a
`DNSException` subclass inside `temp_resolver.resolve`, which is the
`DnsOutcome.dnsException` case. -/
def discover_ldap_domain_controllers_in_domain (dns : DnsOutcome)
    (server_limit : Option Int) (secure : Bool) (envs : List LdapProbeEnv) :
    Except PyError (List String) :=
  order_ldap_servers_by_rtt (resolve_record_in_dns dns) server_limit secure envs

/-- Embeds `discover_kdc_domain_controllers_in_domain` (lines 54-71); same shape as
the LDAP facade, with the KDC ordering. -/
def discover_kdc_domain_controllers_in_domain (dns : DnsOutcome)
    (server_limit : Option Int) (envs : List KdcProbeEnv) :
    Except PyError (List String) :=
  order_kdcs_by_rtt (resolve_record_in_dns dns) server_limit envs

/-! ## Theorems -/

/-! ### Properties of the stable sort -/

theorem insertLe_perm {α : Type} (le : α → α → Bool) (x : α) (l : List α) :
    (insertLe le x l).Perm (x :: l) := by
  induction l with
  | nil => simp [insertLe]
  | cons y ys ih =>
    by_cases hxy : le x y = true
    · simp [insertLe, hxy]
    · simp only [insertLe, if_neg hxy]
      exact (ih.cons y).trans (List.Perm.swap x y ys)

theorem sortLe_perm {α : Type} (le : α → α → Bool) (l : List α) :
    (sortLe le l).Perm l := by
  induction l with
  | nil => simp [sortLe]
  | cons a l ih => exact (insertLe_perm le a (sortLe le l)).trans (ih.cons a)

theorem pairwise_insertLe {α : Type} (le : α → α → Bool)
    (htrans : ∀ a b c, le a b = true → le b c = true → le a c = true)
    (htot : ∀ a b, le a b = true ∨ le b a = true)
    (x : α) (l : List α) (h : List.Pairwise (fun a b => le a b = true) l) :
    List.Pairwise (fun a b => le a b = true) (insertLe le x l) := by
  induction l with
  | nil => simp [insertLe]
  | cons y ys ih =>
    rcases List.pairwise_cons.mp h with ⟨hy, hys⟩
    by_cases hxy : le x y = true
    · simp only [insertLe, if_pos hxy]
      refine List.pairwise_cons.mpr ⟨?_, h⟩
      intro z hz
      rcases List.mem_cons.mp hz with rfl | hz2
      · exact hxy
      · exact htrans x y z hxy (hy z hz2)
    · simp only [insertLe, if_neg hxy]
      refine List.pairwise_cons.mpr ⟨?_, ih hys⟩
      intro z hz
      have hz2 := (insertLe_perm le x ys).mem_iff.mp hz
      rcases List.mem_cons.mp hz2 with rfl | hz3
      · rcases htot z y with h1 | h1
        · exact absurd h1 hxy
        · exact h1
      · exact hy z hz3

theorem sortLe_pairwise {α : Type} (le : α → α → Bool)
    (htrans : ∀ a b c, le a b = true → le b c = true → le a c = true)
    (htot : ∀ a b, le a b = true ∨ le b a = true) (l : List α) :
    List.Pairwise (fun a b => le a b = true) (sortLe le l) := by
  induction l with
  | nil => simp [sortLe]
  | cons a l ih => exact pairwise_insertLe le htrans htot a (sortLe le l) ih

theorem filter_insertLe {α : Type} (le : α → α → Bool) (p : α → Bool)
    (hp : ∀ a b, p a = true → p b = true → le a b = true)
    (x : α) (m : List α) :
    (insertLe le x m).filter p = if p x = true then x :: m.filter p else m.filter p := by
  induction m with
  | nil => by_cases hx : p x = true <;> simp [insertLe, List.filter, hx]
  | cons y ys ih =>
    by_cases hxy : le x y = true
    · simp only [insertLe, if_pos hxy]
      by_cases hx : p x = true <;> simp [List.filter_cons, hx]
    · simp only [insertLe, if_neg hxy]
      by_cases hx : p x = true
      · by_cases hy : p y = true
        · exact absurd (hp x y hx hy) hxy
        · simp [List.filter_cons, hx, hy, ih]
      · by_cases hy : p y = true <;> simp [List.filter_cons, hx, hy, ih]

/-- Stability of `sortLe`: for any class of mutually tied elements (`p` selects
elements whose keys are all equal, so `le` holds both ways between them), the
subsequence of `p`-elements is unchanged by sorting. -/
theorem sortLe_filter {α : Type} (le : α → α → Bool) (p : α → Bool)
    (hp : ∀ a b, p a = true → p b = true → le a b = true) (l : List α) :
    (sortLe le l).filter p = l.filter p := by
  induction l with
  | nil => simp [sortLe]
  | cons a l ih =>
    show (insertLe le a (sortLe le l)).filter p = _
    rw [filter_insertLe le p hp a (sortLe le l), ih]
    by_cases ha : p a = true <;> simp [List.filter_cons, ha]

/-- Two sorted lists that are permutations of each other are equal, for an
antisymmetric comparison. -/
theorem sorted_perm_eq {α : Type} (le : α → α → Bool)
    (hanti : ∀ a b, le a b = true → le b a = true → a = b) :
    ∀ l1 l2 : List α, l1.Perm l2 →
      List.Pairwise (fun a b => le a b = true) l1 →
      List.Pairwise (fun a b => le a b = true) l2 → l1 = l2 := by
  intro l1
  induction l1 with
  | nil =>
    intro l2 hp _ _
    exact (hp.nil_eq).symm ▸ rfl
  | cons a l1 ih =>
    intro l2 hp hs1 hs2
    cases l2 with
    | nil => exact absurd hp.symm (by simp [List.Perm.nil_eq, List.cons_ne_nil])
    | cons b l2 =>
      rcases List.pairwise_cons.mp hs1 with ⟨ha, hs1t⟩
      rcases List.pairwise_cons.mp hs2 with ⟨hb, hs2t⟩
      have hab : a = b := by
        have hbmem : b ∈ a :: l1 := hp.symm.subset (List.mem_cons_self b l2)
        have hamem : a ∈ b :: l2 := hp.subset (List.mem_cons_self a l1)
        rcases List.mem_cons.mp hbmem with rfl | hbmem2
        · rfl
        · rcases List.mem_cons.mp hamem with rfl | hamem2
          · rfl
          · exact hanti a b (ha b hbmem2) (hb a hamem2)
      subst hab
      rw [ih l2 hp.cons_inv hs1t hs2t]

/-! ### Properties of the string comparison -/

theorem strLe_cons (c d : Char) (cs ds : List Char) :
    strLe (c :: cs) (d :: ds)
      = if c < d then true else if d < c then false else strLe cs ds := rfl

theorem strLe_total (x y : List Char) : strLe x y = true ∨ strLe y x = true := by
  induction x generalizing y with
  | nil => exact Or.inl rfl
  | cons c cs ih =>
    cases y with
    | nil => exact Or.inr rfl
    | cons d ds =>
      rw [strLe_cons, strLe_cons]
      rcases lt_trichotomy c d with h | h | h
      · left; rw [if_pos h]
      · subst h
        have hcc : ¬ c < c := lt_irrefl c
        simp only [if_neg hcc]
        exact ih ds
      · right; rw [if_pos h]

theorem strLe_trans : ∀ x y z : List Char,
    strLe x y = true → strLe y z = true → strLe x z = true := by
  intro x
  induction x with
  | nil => intro y z _ _; rfl
  | cons c cs ih =>
    intro y z h1 h2
    cases y with
    | nil => exact absurd h1 (by simp [strLe])
    | cons d ds =>
      cases z with
      | nil => exact absurd h2 (by simp [strLe])
      | cons e es =>
        rw [strLe_cons] at h1 h2 ⊢
        rcases lt_trichotomy c d with hcd | hcd | hcd
        · rcases lt_trichotomy d e with hde | hde | hde
          · rw [if_pos (hcd.trans hde)]
          · subst hde; rw [if_pos hcd]
          · rw [if_neg (asymm hde), if_pos hde] at h2; exact absurd h2 (by simp)
        · subst hcd
          rcases lt_trichotomy c e with hce | hce | hce
          · rw [if_pos hce]
          · subst hce
            have hcc : ¬ c < c := lt_irrefl c
            simp only [if_neg hcc] at h1 h2 ⊢
            exact ih ds es h1 h2
          · rw [if_neg (asymm hce), if_pos hce] at h2; exact absurd h2 (by simp)
        · rw [if_neg (asymm hcd), if_pos hcd] at h1; exact absurd h1 (by simp)

theorem strLe_antisymm : ∀ x y : List Char,
    strLe x y = true → strLe y x = true → x = y := by
  intro x
  induction x with
  | nil =>
    intro y _ h2
    cases y with
    | nil => rfl
    | cons d ds => exact absurd h2 (by simp [strLe])
  | cons c cs ih =>
    intro y h1 h2
    cases y with
    | nil => exact absurd h1 (by simp [strLe])
    | cons d ds =>
      rw [strLe_cons] at h1 h2
      rcases lt_trichotomy c d with hcd | hcd | hcd
      · rw [if_neg (asymm hcd), if_pos hcd] at h2; exact absurd h2 (by simp)
      · subst hcd
        have hcc : ¬ c < c := lt_irrefl c
        simp only [if_neg hcc] at h1 h2
        rw [ih ds h1 h2]
      · rw [if_neg (asymm hcd), if_pos hcd] at h1; exact absurd h1 (by simp)

theorem pyStrLe_antisymm (a b : String) (h1 : pyStrLe a b = true)
    (h2 : pyStrLe b a = true) : a = b := by
  cases a with
  | mk xs =>
    cases b with
    | mk ys => exact congrArg String.mk (strLe_antisymm xs ys h1 h2)

/-! ### Properties of the SRV record comparison -/

theorem recLe_total (a b : SrvRecord) : recLe a b = true ∨ recLe b a = true := by
  unfold recLe
  rcases lt_trichotomy (a.priority : Int) (b.priority : Int) with h | h | h
  · exact Or.inl (decide_eq_true (Or.inl h))
  · by_cases hw : (-1 * (a.weight : Int)) ≤ (-1 * (b.weight : Int))
    · exact Or.inl (decide_eq_true (Or.inr ⟨h, hw⟩))
    · exact Or.inr (decide_eq_true (Or.inr ⟨h.symm, le_of_not_le hw⟩))
  · exact Or.inr (decide_eq_true (Or.inl h))

theorem recLe_trans (a b c : SrvRecord) (h1 : recLe a b = true) (h2 : recLe b c = true) :
    recLe a c = true := by
  unfold recLe at h1 h2 ⊢
  have h1p := of_decide_eq_true h1
  have h2p := of_decide_eq_true h2
  apply decide_eq_true
  rcases h1p with h1p | ⟨he1, hw1⟩
  · rcases h2p with h2p | ⟨he2, hw2⟩
    · exact Or.inl (h1p.trans h2p)
    · exact Or.inl (lt_of_lt_of_le h1p (le_of_eq he2))
  · rcases h2p with h2p | ⟨he2, hw2⟩
    · exact Or.inl (lt_of_le_of_lt (le_of_eq he1) h2p)
    · exact Or.inr ⟨he1.trans he2, hw1.trans hw2⟩

/-! ### Properties of the (rtt, uri) tuple comparison -/

theorem pairLe_total (a b : ℤ × String) : pairLe a b = true ∨ pairLe b a = true := by
  unfold pairLe
  rcases lt_trichotomy a.1 b.1 with h | h | h
  · exact Or.inl (decide_eq_true (Or.inl h))
  · rcases strLe_total a.2.data b.2.data with hs | hs
    · exact Or.inl (decide_eq_true (Or.inr ⟨h, hs⟩))
    · exact Or.inr (decide_eq_true (Or.inr ⟨h.symm, hs⟩))
  · exact Or.inr (decide_eq_true (Or.inl h))

theorem pairLe_trans (a b c : ℤ × String) (h1 : pairLe a b = true)
    (h2 : pairLe b c = true) : pairLe a c = true := by
  unfold pairLe at h1 h2 ⊢
  have h1p := of_decide_eq_true h1
  have h2p := of_decide_eq_true h2
  apply decide_eq_true
  rcases h1p with h1p | ⟨he1, hs1⟩
  · rcases h2p with h2p | ⟨he2, hs2⟩
    · exact Or.inl (h1p.trans h2p)
    · exact Or.inl (lt_of_lt_of_le h1p (le_of_eq he2))
  · rcases h2p with h2p | ⟨he2, hs2⟩
    · exact Or.inl (lt_of_le_of_lt (le_of_eq he1) h2p)
    · exact Or.inr ⟨he1.trans he2, strLe_trans a.2.data b.2.data c.2.data hs1 hs2⟩

theorem pairLe_antisymm (a b : ℤ × String) (h1 : pairLe a b = true)
    (h2 : pairLe b a = true) : a = b := by
  unfold pairLe at h1 h2
  have h1p := of_decide_eq_true h1
  have h2p := of_decide_eq_true h2
  rcases h1p with h1p | ⟨he1, hs1⟩
  · rcases h2p with h2p | ⟨he2, hs2⟩
    · exact absurd h2p (asymm h1p)
    · rw [he2] at h1p; exact absurd h1p (lt_irrefl _)
  · rcases h2p with h2p | ⟨he2, hs2⟩
    · rw [he1] at h2p; exact absurd h2p (lt_irrefl _)
    · exact Prod.ext he1 (pyStrLe_antisymm a.2 b.2 hs1 hs2)

/-! ### Helper lemmas about the ranking engine -/

theorem process_eq_none (r : List (Option (ℤ × String))) (t : List (ℤ × String))
    (h : collectReachable r = Except.ok t) :
    process_sort_return_rtt_ordering_results r none
      = Except.ok ((sortLe pairLe t).map Prod.snd) := by
  unfold process_sort_return_rtt_ordering_results
  rw [h]

theorem process_eq_some (r : List (Option (ℤ × String))) (t : List (ℤ × String)) (n : Int)
    (h : collectReachable r = Except.ok t) :
    process_sort_return_rtt_ordering_results r (some n)
      = Except.ok
          (if n ≠ 0 ∧ (((sortLe pairLe t).map Prod.snd).length : Int) > n
           then pySliceTake n ((sortLe pairLe t).map Prod.snd)
           else (sortLe pairLe t).map Prod.snd) := by
  unfold process_sort_return_rtt_ordering_results
  rw [h]

theorem rttFullList_eq (r : List (Option (ℤ × String))) (t : List (ℤ × String))
    (h : collectReachable r = Except.ok t) :
    rttFullList r = Except.ok ((sortLe pairLe t).map Prod.snd) := by
  unfold rttFullList
  rw [h]
  rfl

theorem collect_of_rttFullList (r : List (Option (ℤ × String))) (full : List String)
    (h : rttFullList r = Except.ok full) :
    ∃ t, collectReachable r = Except.ok t ∧ (sortLe pairLe t).map Prod.snd = full := by
  unfold rttFullList at h
  cases hc : collectReachable r with
  | error e => rw [hc] at h; exact absurd h (by simp [Except.map])
  | ok t =>
    rw [hc] at h
    exact ⟨t, rfl, by simpa [Except.map] using h⟩

theorem pySliceTake_is_take {α : Type} (n : Int) (l : List α) :
    pySliceTake n l = l.take (if 0 ≤ n then n.toNat else l.length - n.natAbs) := by
  unfold pySliceTake
  split <;> simp_all

theorem process_nil (lim : Option Int) :
    process_sort_return_rtt_ordering_results [] lim = Except.ok [] := by
  cases lim with
  | none => rfl
  | some n =>
    rw [process_eq_some [] [] n rfl]
    show Except.ok (if n ≠ 0 ∧ ((0:Int)) > n then pySliceTake n [] else []) = Except.ok []
    split
    · rw [pySliceTake_is_take]; simp
    · rfl

/-! ### Claim theorems -/

/-- C1: the public discovery entry points do not return a (limited, full) pair.
At a concrete engine input with two reachable probe results (RTT ticks 1 and 2)
and server limit 1, the entire return value of
`_process_sort_return_rtt_ordering_results` — which both facades return
unchanged — is the single truncated URI list: line 171 is `return short_list`,
while the entry points' docstrings (lines 43-44 and 62-64) promise a tuple of
the limited and the full ordered lists. -/
theorem c1_engine_returns_only_the_truncated_list :
    process_sort_return_rtt_ordering_results
      [some ((1:ℤ), "ldap://dc1.example.com:389"), some ((2:ℤ), "ldap://dc2.example.com:389")]
      (some 1)
    = Except.ok ["ldap://dc1.example.com:389"] := rfl

/-- C2: a probe batch in which some probe reported unreachable (the probe
returned `None`) makes the ranking engine raise `TypeError` instead of
completing: the filter guard `result_tuple[0] is not None` (line 158)
subscripts the `None` result, although the comment on line 156 says such
results are to be dropped. -/
theorem c2_unreachable_result_raises_type_error :
    process_sort_return_rtt_ordering_results
      [some ((1:ℤ), "ldap://dc1.example.com:389"), none] none
    = Except.error PyError.typeError := rfl

/-- C3: with two distinct candidate records, both dispatched lookups target the
second record's host and port — not each its own candidate: the lambdas built
in the loop at lines 117-122 (and 131-136) capture the loop variables
themselves, which hold the final record's values by the time the lambdas are
invoked inside the ranking engine. -/
theorem c3_all_lookups_target_the_last_record :
    lookupCallTargets
      [⟨"dc1.example.com", 389, 0, 100⟩, ⟨"dc2.example.com", 3268, 0, 50⟩]
    = [("dc2.example.com", 3268), ("dc2.example.com", 3268)] := rfl

/-- C4 counterexample: with one reachable probe result — so the full ordered
list is `["ldap://dc1.example.com:389"]` — and the negative limit `-1`, the
engine returns the empty limited list rather than the full list the claim
requires for non-positive limits: `-1` is truthy, `len(result_list) > -1`
always holds, and the slice `result_list[:-1]` drops the last element. -/
theorem c4_negative_limit_truncates_counterexample :
    rttFullList [some ((1:ℤ), "ldap://dc1.example.com:389")]
      = Except.ok ["ldap://dc1.example.com:389"] ∧
    process_sort_return_rtt_ordering_results
      [some ((1:ℤ), "ldap://dc1.example.com:389")] (some (-1))
      = Except.ok ([] : List String) ∧
    ([] : List String) ≠ ["ldap://dc1.example.com:389"] :=
  ⟨rfl, rfl, by decide⟩

/-- C4 (amended): whenever the engine completes with full ordered list `full`
and returns `limited`, `limited` is a prefix of `full` in every case; it equals
`full` when no limit is given, when the limit is zero, or when a positive limit
is at least `len(full)`; and it equals the Python slice `full[:n]` whenever the
limit `n` is nonzero and `len(full) > n` — in particular a negative limit
slices off the last `|n|` elements instead of returning `full`. -/
theorem c4_limited_is_slice_of_full (r : List (Option (ℤ × String)))
    (lim : Option Int) (n : Int) (full limited : List String)
    (hfull : rttFullList r = Except.ok full)
    (hrun : process_sort_return_rtt_ordering_results r lim = Except.ok limited) :
    (∃ rest, limited ++ rest = full) ∧
    (lim = none → limited = full) ∧
    (lim = some 0 → limited = full) ∧
    (lim = some n → 0 < n → (full.length : Int) ≤ n → limited = full) ∧
    (lim = some n → n ≠ 0 → (full.length : Int) > n → limited = pySliceTake n full) := by
  obtain ⟨t, hc, hmap⟩ := collect_of_rttFullList r full hfull
  cases lim with
  | none =>
    rw [process_eq_none r t hc, hmap] at hrun
    have hlf : limited = full := (Except.ok.injEq _ _).mp hrun.symm
    subst hlf
    exact ⟨⟨[], List.append_nil _⟩, fun _ => rfl, by simp, by simp, by simp⟩
  | some m =>
    rw [process_eq_some r t m hc, hmap] at hrun
    have hlf := (Except.ok.injEq _ _).mp hrun.symm
    by_cases hcond : m ≠ 0 ∧ (full.length : Int) > m
    · rw [if_pos hcond] at hlf
      refine ⟨?_, by simp, ?_, ?_, ?_⟩
      · refine ⟨full.drop (if 0 ≤ m then m.toNat else full.length - m.natAbs), ?_⟩
        rw [hlf, pySliceTake_is_take]
        exact List.take_append_drop _ full
      · intro hm0
        exact absurd (by injection hm0) hcond.1
      · intro hmn _ hlen
        injection hmn with hmn
        subst hmn
        exact absurd hcond.2 (not_lt.mpr hlen)
      · intro hmn _ _
        injection hmn with hmn
        subst hmn
        exact hlf
    · rw [if_neg hcond] at hlf
      subst hlf
      refine ⟨⟨[], List.append_nil _⟩, by simp, fun _ => rfl, fun _ _ _ => rfl, ?_⟩
      intro hmn hn0 hlen
      injection hmn with hmn
      subst hmn
      exact absurd ⟨hn0, hlen⟩ hcond

/-- C4 witness: concrete run with two reachable results and limit 1; the
returned limited list is the Python slice `full[:1]` of the full ordered
list. -/
theorem c4_limited_is_slice_of_full_witness :
    ["ldap://dc1.example.com:636"]
      = pySliceTake 1 ["ldap://dc1.example.com:636", "ldap://dc2.example.com:636"] :=
  (c4_limited_is_slice_of_full
    [some ((1:ℤ), "ldap://dc1.example.com:636"), some ((2:ℤ), "ldap://dc2.example.com:636")]
    (some 1) 1
    ["ldap://dc1.example.com:636", "ldap://dc2.example.com:636"]
    ["ldap://dc1.example.com:636"]
    rfl rfl).2.2.2.2 rfl (by decide) (by decide)

/-- C5 counterexample: a syntactically invalid domain name surfaces inside
`temp_resolver.resolve` as a `DNSException` subclass, which the resolver's
`except` arm silently converts to zero candidates; together with the invalid
negative server limit `-1`, the facade returns an ordinary empty result and
raises nothing — the claim that such caller mistakes raise a fault at the
facade boundary is false. -/
theorem c5_invalid_inputs_do_not_raise_counterexample :
    discover_ldap_domain_controllers_in_domain DnsOutcome.dnsException (some (-1)) true []
    = Except.ok [] := rfl

/-- C5 (amended): caller mistakes are not raised at the facade boundary. An
invalid domain name makes the DNS library raise inside the resolver, which
catches it like any resolution failure and yields zero candidates, so both
public entry points return an empty ok-result — for every server limit
(including invalid negative ones), secure flag and probe environment — exactly
as they do for network failures. -/
theorem c5_invalid_inputs_yield_empty_result (d : DnsOutcome) (lim : Option Int)
    (secure : Bool) (envsL : List LdapProbeEnv) (envsK : List KdcProbeEnv)
    (h : d = DnsOutcome.dnsException ∨ d = DnsOutcome.unexpectedException) :
    discover_ldap_domain_controllers_in_domain d lim secure envsL = Except.ok [] ∧
    discover_kdc_domain_controllers_in_domain d lim envsK = Except.ok [] := by
  have hres : resolve_record_in_dns d = [] := by
    rcases h with rfl | rfl <;> rfl
  constructor
  · show order_ldap_servers_by_rtt (resolve_record_in_dns d) lim secure envsL = Except.ok []
    rw [hres]
    exact process_nil lim
  · show order_kdcs_by_rtt (resolve_record_in_dns d) lim envsK = Except.ok []
    rw [hres]
    exact process_nil lim

/-- C5 witness: the amended theorem applied at the `DNSException` outcome with
limit `-1`. -/
theorem c5_invalid_inputs_yield_empty_result_witness :
    discover_ldap_domain_controllers_in_domain DnsOutcome.dnsException (some (-1)) true []
      = Except.ok [] ∧
    discover_kdc_domain_controllers_in_domain DnsOutcome.dnsException (some (-1)) []
      = Except.ok [] :=
  c5_invalid_inputs_yield_empty_result DnsOutcome.dnsException (some (-1)) true [] []
    (Or.inl rfl)

/-- C6: on every successfully resolved record set, `_resolve_record_in_dns`
returns a permutation of the decoded records that is pairwise sorted by
(priority ascending, then weight descending), and the sort is stable: for every
priority/weight pair, the subsequence of records carrying exactly that priority
and weight is unchanged from the input order. -/
theorem c6_resolver_sorts_by_priority_then_weight_stably (records : List SrvRecord) :
    (resolve_record_in_dns (DnsOutcome.ok records)).Perm records ∧
    List.Pairwise
      (fun a b => a.priority < b.priority ∨ (a.priority = b.priority ∧ b.weight ≤ a.weight))
      (resolve_record_in_dns (DnsOutcome.ok records)) ∧
    ∀ pr w : Nat,
      (resolve_record_in_dns (DnsOutcome.ok records)).filter
          (fun rec => decide (rec.priority = pr ∧ rec.weight = w))
        = records.filter (fun rec => decide (rec.priority = pr ∧ rec.weight = w)) := by
  refine ⟨sortLe_perm recLe records, ?_, ?_⟩
  · have h := sortLe_pairwise recLe recLe_trans recLe_total records
    refine h.imp ?_
    intro a b hab
    have hab2 := of_decide_eq_true hab
    rcases hab2 with hlt | ⟨heq, hw⟩
    · exact Or.inl (by exact_mod_cast hlt)
    · refine Or.inr ⟨by exact_mod_cast heq, by omega⟩
  · intro pr w
    apply sortLe_filter
    intro a b ha hb
    have ha2 := of_decide_eq_true ha
    have hb2 := of_decide_eq_true hb
    apply decide_eq_true
    refine Or.inr ⟨?_, ?_⟩
    · have : a.priority = b.priority := ha2.1.trans hb2.1.symm
      exact_mod_cast this
    · have : a.weight = b.weight := ha2.2.trans hb2.2.symm
      omega

/-- C7: on a DNS-level failure and on an unexpected error during the DNS query,
`_resolve_record_in_dns` returns the empty list.  It raises nothing: the
embedding is a total function into `List SrvRecord` because both `except` arms
catch their exception and return. -/
theorem c7_resolver_failures_yield_empty_and_no_fault :
    resolve_record_in_dns DnsOutcome.dnsException = [] ∧
    resolve_record_in_dns DnsOutcome.unexpectedException = [] := ⟨rfl, rfl⟩

/-- C8: for every LDAP probe with the secure flag set, if the connection opens
but the StartTLS negotiation fails — whether `start_tls()` returns falsy or
raises — the probe returns `None` (unreachable), so the endpoint is excluded
from ranked output even though the bare connection succeeded. -/
theorem c8_tls_failure_is_unreachable (server_host : String) (server_port : Nat)
    (env : LdapProbeEnv) (hopen : env.openRaises = false)
    (htls : env.tls = TlsOutcome.failed ∨ env.tls = TlsOutcome.raised) :
    check_ldap_server_availability_and_rtt server_host server_port true env = none := by
  rcases htls with h | h <;>
    simp [check_ldap_server_availability_and_rtt, hopen, h]

/-- C8 witness: concrete probe whose connection opens and whose StartTLS
negotiation returns falsy. -/
theorem c8_tls_failure_is_unreachable_witness :
    check_ldap_server_availability_and_rtt "dc8.example.com" 389 true
      ⟨false, TlsOutcome.failed, 0, 7⟩ = none :=
  c8_tls_failure_is_unreachable "dc8.example.com" 389
    ⟨false, TlsOutcome.failed, 0, 7⟩ rfl (Or.inl rfl)

/-- C9: every KDC probe attempts IPv6 first and IPv4 second with the same host
and port: if the IPv6 connect succeeds, the probe returns the IPv6-measured
latency; if the IPv6 attempt fails (for any reason) and the IPv4 connect
succeeds, the probe returns the IPv4-measured latency — so a host reachable
only over IPv4 still yields a successful probe; and the probe returns `None`
exactly when both address-family attempts fail. -/
theorem c9_kdc_probe_v6_then_v4 (server_host : String) (server_port : Nat)
    (env : KdcProbeEnv) :
    (env.v6.connectSucceeds = true →
      check_kdc_availability_and_rtt server_host server_port env
        = some (env.v6.tEnd - env.v6.tStart,
            format_hostname_or_ip_and_port_to_uri server_host server_port)) ∧
    (env.v6.connectSucceeds = false → env.v4.connectSucceeds = true →
      check_kdc_availability_and_rtt server_host server_port env
        = some (env.v4.tEnd - env.v4.tStart,
            format_hostname_or_ip_and_port_to_uri server_host server_port)) ∧
    (check_kdc_availability_and_rtt server_host server_port env = none ↔
      env.v6.connectSucceeds = false ∧ env.v4.connectSucceeds = false) := by
  cases hv6 : env.v6.connectSucceeds <;> cases hv4 : env.v4.connectSucceeds <;>
    simp [check_kdc_availability_and_rtt, tryConnectCandidates, hv6, hv4]

/-- C9 witness: a host whose IPv6 attempt fails and whose IPv4 connect succeeds
with clock readings 3 and 5 still yields a successful probe with the
IPv4-measured latency 2. -/
theorem c9_kdc_probe_v6_then_v4_witness :
    check_kdc_availability_and_rtt "kdc9.example.com" 88
      ⟨⟨false, 0, 0⟩, ⟨true, 3, 5⟩⟩ = some ((2:ℤ), "kdc9.example.com:88") := by
  have h := (c9_kdc_probe_v6_then_v4 "kdc9.example.com" 88
    ⟨⟨false, 0, 0⟩, ⟨true, 3, 5⟩⟩).2.1 rfl rfl
  rw [h]
  rfl

/-- C10: whenever the collected probe results all carry measured latencies (so
the engine completes), the output is the deterministic image of the sorted
(latency, URI) pairs: the engine returns exactly the URI projection of
`sortLe pairLe`; along the sorted pairs, latencies are non-decreasing and any
two pairs with equal latency are in ascending code-point URI order — not
submission order; and two runs whose collected probe results are permutations
of each other produce identical output for every limit. -/
theorem c10_output_is_deterministic_latency_then_uri_order
    (r r2 : List (Option (ℤ × String))) (t t2 : List (ℤ × String)) (lim : Option Int)
    (h : collectReachable r = Except.ok t)
    (h2 : collectReachable r2 = Except.ok t2)
    (hperm : t.Perm t2) :
    process_sort_return_rtt_ordering_results r none
        = Except.ok ((sortLe pairLe t).map Prod.snd) ∧
    List.Pairwise
      (fun a b => a.1 ≤ b.1 ∧ (a.1 = b.1 → pyStrLe a.2 b.2 = true))
      (sortLe pairLe t) ∧
    process_sort_return_rtt_ordering_results r lim
        = process_sort_return_rtt_ordering_results r2 lim := by
  have hsorted : ∀ u : List (ℤ × String),
      List.Pairwise (fun a b => pairLe a b = true) (sortLe pairLe u) :=
    fun u => sortLe_pairwise pairLe pairLe_trans pairLe_total u
  refine ⟨process_eq_none r t h, ?_, ?_⟩
  · refine (hsorted t).imp ?_
    intro a b hab
    have hab2 := of_decide_eq_true hab
    rcases hab2 with hlt | ⟨heq, hs⟩
    · refine ⟨le_of_lt hlt, ?_⟩
      intro he
      rw [he] at hlt
      exact absurd hlt (lt_irrefl _)
    · exact ⟨le_of_eq heq, fun _ => hs⟩
  · have hperm2 : (sortLe pairLe t).Perm (sortLe pairLe t2) :=
      ((sortLe_perm pairLe t).trans hperm).trans (sortLe_perm pairLe t2).symm
    have hsorteq : sortLe pairLe t = sortLe pairLe t2 :=
      sorted_perm_eq pairLe pairLe_antisymm _ _ hperm2 (hsorted t) (hsorted t2)
    cases lim with
    | none => rw [process_eq_none r t h, process_eq_none r2 t2 h2, hsorteq]
    | some n => rw [process_eq_some r t n h, process_eq_some r2 t2 n h2, hsorteq]

/-- C10 witness: two runs whose collected results are the same two
equal-latency endpoints in opposite submission orders produce the same output,
ordered by URI. -/
theorem c10_output_is_deterministic_witness :
    process_sort_return_rtt_ordering_results
        [some ((2:ℤ), "ldap://dcb.example.com:389"), some ((2:ℤ), "ldap://dca.example.com:389")]
        none
      = process_sort_return_rtt_ordering_results
        [some ((2:ℤ), "ldap://dca.example.com:389"), some ((2:ℤ), "ldap://dcb.example.com:389")]
        none :=
  (c10_output_is_deterministic_latency_then_uri_order
    [some ((2:ℤ), "ldap://dcb.example.com:389"), some ((2:ℤ), "ldap://dca.example.com:389")]
    [some ((2:ℤ), "ldap://dca.example.com:389"), some ((2:ℤ), "ldap://dcb.example.com:389")]
    [((2:ℤ), "ldap://dcb.example.com:389"), ((2:ℤ), "ldap://dca.example.com:389")]
    [((2:ℤ), "ldap://dca.example.com:389"), ((2:ℤ), "ldap://dcb.example.com:389")]
    none rfl rfl (by decide)).2.2

end DiscoveryUtils
